import Mathlib

/-!
Verification development for the Slot Resolution Engine of the scheduling
repository.  The Python sources are shallowly embedded as Lean definitions:

* timestamps are modelled as integer minutes; a day has 1440 minutes, so the
  hour of a timestamp t is (t mod 1440) / 60 and its day index is t / 1440
  (euclidean division).  All timestamps in one scheduling run of the source
  carry the same UTC offset (+05:30), so the source's lexicographic
  comparisons of ISO strings coincide with this integer order.
* Python dicts appearing as records become structures; dicts used as maps
  become association lists queried with List.lookup.
* Python's stable list.sort(key=...) becomes List.insertionSort with the
  corresponding (total, transitive) relation, which inserts later elements
  after earlier equal ones, i.e. is stable.
-/

namespace SlotEngine

/-- hour of the day of a timestamp in minutes, as in
int(slot_start.split('T')[1].split(':')[0]) of main_vllm_deepseek.py -/
def hourOf (t : Int) : Int := (t % 1440) / 60

/-- day index of a timestamp (timestamps are minutes since an arbitrary epoch
midnight). -/
def dayOf (t : Int) : Int := t / 1440

/-- midnight of the day of t, the date_part used by
DeepSeekSchedulingAgent._calculate_optimal_time_slots. -/
def dayStart (t : Int) : Int := 1440 * (t / 1440)

/-- weekday as Python datetime.weekday(): Monday = 0 .. Sunday = 6.  Day 0 of
our epoch is declared a Thursday (weekday 3), matching the Unix epoch. -/
def weekdayOf (t : Int) : Int := (dayOf t + 3) % 7

/-- the TimeSlot model of app/models/meeting.py: a half-open interval
[start_time, end_time) with an availability flag. -/
structure TimeSlot where
  start_time : Int
  end_time : Int
  available : Bool
deriving DecidableEq, Repr

/-- membership of a time point in a slot (half-open semantics). -/
def containsT (s : TimeSlot) (t : Int) : Bool :=
  decide (s.start_time ≤ t ∧ t < s.end_time)

/-- a slot clipped to the bounding window [ws, we). -/
def clipSlot (ws we : Int) (s : TimeSlot) : TimeSlot :=
  ⟨max ws s.start_time, min we s.end_time, s.available⟩

/-- slots restricted to the bounding window: clipped, empty results dropped. -/
def restrictWindow (ws we : Int) (l : List TimeSlot) : List TimeSlot :=
  (l.map (clipSlot ws we)).filter (fun s => decide (s.start_time < s.end_time))

/-- comparison by start time, the sort key of
normalized_busy_slots.sort(key=lambda x: x.start_time). -/
def slotLE (a b : TimeSlot) : Prop := a.start_time ≤ b.start_time

instance : DecidableRel slotLE := fun a b =>
  inferInstanceAs (Decidable (a.start_time ≤ b.start_time))

instance : IsTotal TimeSlot slotLE := ⟨fun a b => le_total a.start_time b.start_time⟩

instance : IsTrans TimeSlot slotLE := ⟨fun _ _ _ h h' => le_trans h h'⟩

/-- two half-open slots do not overlap. -/
def disjointSlots (a b : TimeSlot) : Prop :=
  a.end_time ≤ b.start_time ∨ b.end_time ≤ a.start_time

instance (a b : TimeSlot) : Decidable (disjointSlots a b) :=
  inferInstanceAs (Decidable (_ ∨ _))

theorem disjointSlots_symm : Symmetric disjointSlots := fun _ _ h => h.symm

/-- the cursor sweep of GoogleService._calculate_free_slots: walk the busy
slots (already sorted by start), emit a gap before each busy slot that starts
after the cursor, advance the cursor to max(cursor, busy end), and emit a
final slot up to end_date if any time remains. -/
def calcFreeAux (we : Int) (cursor : Int) : List TimeSlot → List TimeSlot
  | [] => if cursor < we then [⟨cursor, we, true⟩] else []
  | b :: rest =>
      (if cursor < b.start_time then [⟨cursor, b.start_time, true⟩] else []) ++
        calcFreeAux we (max cursor b.end_time) rest

/-- GoogleService._calculate_free_slots: sort the busy slots by start time
(Python's sort is stable, as is insertionSort with this relation), then sweep
a cursor from start_date. -/
def calculate_free_slots (ws we : Int) (busy : List TimeSlot) : List TimeSlot :=
  calcFreeAux we ws (List.insertionSort slotLE busy)

theorem containsT_clipSlot (ws we t : Int) (s : TimeSlot) :
    containsT (clipSlot ws we s) t =
      decide (ws ≤ t ∧ t < we ∧ s.start_time ≤ t ∧ t < s.end_time) := by
  simp only [containsT, clipSlot]
  rw [decide_eq_decide, max_le_iff, lt_min_iff]
  tauto

theorem calcFreeAux_count (ws we t : Int) (l : List TimeSlot) :
    ∀ c : Int, ws ≤ c →
      l.Sorted slotLE →
      (∀ s ∈ l, s.start_time < s.end_time) →
      l.Pairwise disjointSlots →
      (∀ s ∈ l, c ≤ max ws s.start_time ∨ min we s.end_time ≤ max ws s.start_time) →
      (calcFreeAux we c l).countP (fun s => containsT (clipSlot ws we s) t)
          + l.countP (fun s => containsT (clipSlot ws we s) t)
        = if c ≤ t ∧ t < we then 1 else 0 := by
  induction l with
  | nil =>
      intro c hwc _ _ _ _
      by_cases hcw : c < we
      · simp only [calcFreeAux, if_pos hcw, List.countP_cons, List.countP_nil,
          containsT_clipSlot, decide_eq_true_eq]
        split_ifs <;> omega
      · simp only [calcFreeAux, if_neg hcw, List.countP_nil]
        split_ifs <;> omega
  | cons b rest ih =>
      intro c hwc hs hv hp hcov
      obtain ⟨hble, hsr⟩ := List.sorted_cons.mp hs
      obtain ⟨hpd, hpr⟩ := List.pairwise_cons.mp hp
      have hbv : b.start_time < b.end_time := hv b (List.mem_cons_self _ _)
      have hbr : ∀ r ∈ rest, b.end_time ≤ r.start_time := by
        intro r hr
        rcases hpd r hr with h | h
        · exact h
        · have h1 := hv r (List.mem_cons_of_mem _ hr)
          have h2 := hble r hr
          simp only [slotLE] at h2
          omega
      have hcov' : ∀ s ∈ rest,
          max c b.end_time ≤ max ws s.start_time ∨
            min we s.end_time ≤ max ws s.start_time := by
        intro s hsm
        rcases hcov s (List.mem_cons_of_mem _ hsm) with h | h
        · exact Or.inl (max_le h (le_trans (hbr s hsm) (le_max_right _ _)))
        · exact Or.inr h
      have key := ih (max c b.end_time) (le_trans hwc (le_max_left _ _)) hsr
        (fun s hsm => hv s (List.mem_cons_of_mem _ hsm)) hpr hcov'
      have hcb := hcov b (List.mem_cons_self _ _)
      simp only [calcFreeAux, List.countP_append, List.countP_cons, List.countP_nil,
        containsT_clipSlot, decide_eq_true_eq] at key ⊢
      by_cases hgap : c < b.start_time
      · simp only [if_pos hgap, List.countP_cons, List.countP_nil,
          containsT_clipSlot, decide_eq_true_eq]
        split_ifs at key ⊢ <;> omega
      · simp only [if_neg hgap, List.countP_nil]
        split_ifs at key ⊢ <;> omega

theorem countP_restrictWindow (ws we t : Int) (l : List TimeSlot) :
    (restrictWindow ws we l).countP (fun s => containsT s t)
      = l.countP (fun s => containsT (clipSlot ws we s) t) := by
  unfold restrictWindow
  rw [List.countP_filter, List.countP_map]
  apply List.countP_congr
  intro s _
  simp only [Function.comp_apply, Bool.and_eq_true, decide_eq_true_eq, containsT,
    decide_eq_decide]
  constructor
  · rintro ⟨h, _⟩; exact h
  · intro h; exact ⟨h, lt_of_le_of_lt h.1 h.2⟩

/-- C2: for any bounding window [ws, we) and any list of valid, pairwise
non-overlapping busy intervals, every time point of the window is covered by
exactly one interval of the free intervals computed by the cursor sweep
together with the busy intervals, both restricted to the window, and no
point outside the window is covered at all: no gap and no double coverage. -/
theorem free_slots_exact_cover (ws we : Int) (busy : List TimeSlot)
    (hv : ∀ s ∈ busy, s.start_time < s.end_time)
    (hd : busy.Pairwise disjointSlots) (t : Int) :
    (restrictWindow ws we (calculate_free_slots ws we busy ++ busy)).countP
        (fun s => containsT s t)
      = if ws ≤ t ∧ t < we then 1 else 0 := by
  have hperm := List.perm_insertionSort slotLE busy
  have hsorted := List.sorted_insertionSort slotLE busy
  have key := calcFreeAux_count ws we t (List.insertionSort slotLE busy) ws le_rfl
    hsorted
    (fun s hs => hv s (hperm.subset hs))
    ((hperm.pairwise_iff (fun h => disjointSlots_symm h)).mpr hd)
    (fun s _ => Or.inl (le_max_left ws s.start_time))
  rw [countP_restrictWindow, List.countP_append, calculate_free_slots]
  rw [← hperm.countP_eq (fun s => containsT (clipSlot ws we s) t)]
  exact key

/-- witness for free_slots_exact_cover at a concrete window, busy list and
time point. -/
theorem free_slots_exact_cover_witness :
    List.Pairwise disjointSlots [(⟨120, 240, false⟩ : TimeSlot), ⟨360, 480, false⟩] ∧
    (restrictWindow 0 600
        (calculate_free_slots 0 600 [⟨120, 240, false⟩, ⟨360, 480, false⟩] ++
          [⟨120, 240, false⟩, ⟨360, 480, false⟩])).countP
      (fun s => containsT s 300) = if (0 : Int) ≤ 300 ∧ (300 : Int) < 600 then 1 else 0 :=
  ⟨by decide,
    free_slots_exact_cover 0 600 [⟨120, 240, false⟩, ⟨360, 480, false⟩]
      (by decide) (by decide) 300⟩

/-- substring test on char lists, modelling Python's needle in haystack. -/
def listIsSub : List Char → List Char → Bool
  | n, [] => n.isEmpty
  | n, c :: t => n.isPrefixOf (c :: t) || listIsSub n t

/-- Python's substring operator needle in haystack for strings. -/
def strContains (needle hay : String) : Bool := listIsSub needle.toList hay.toList

/-- the AvailabilityResponse model of the app: free and busy slots for one
participant. -/
structure AvailabilityResponse where
  participant_email : String
  free_slots : List TimeSlot
  busy_slots : List TimeSlot
deriving DecidableEq, Repr

/-- the per-participant body of GoogleService.get_calendar_availability: a
successful Calendar Provider fetch (some busy) yields the busy slots plus the
free slots computed by _calculate_free_slots; a failed fetch (HttpError,
modelled as none) is caught and yields a response with empty free AND empty
busy lists. -/
def getCalendarAvailabilityFor (email : String) (ws we : Int)
    (fetched : Option (List TimeSlot)) : AvailabilityResponse :=
  match fetched with
  | some busy => ⟨email, calculate_free_slots ws we busy, busy⟩
  | none => ⟨email, [], []⟩

/-- GoogleService.get_calendar_availability over all participants: one
response per participant, never a failure of the whole run. -/
def getCalendarAvailability (ws we : Int)
    (fetches : List (String × Option (List TimeSlot))) : List AvailabilityResponse :=
  fetches.map (fun pe => getCalendarAvailabilityFor pe.1 ws we pe.2)

/-- the spec's notion that a response shows a participant as fully free over
the whole bounding window: every point of the window lies in some free slot.
This definition follows the spec's words, for comparison with the code. -/
def specFullyFree (ws we : Int) (r : AvailabilityResponse) : Prop :=
  ∀ t : Int, ws ≤ t → t < we → ∃ s ∈ r.free_slots, containsT s t = true

/-- the calendar event records of main_vllm_deepseek.py (StartTime, EndTime,
Summary; the attendee fields are never read by the engine). -/
structure Event where
  StartTime : Int
  EndTime : Int
  Summary : String
deriving DecidableEq, Repr

/-- midnight of 2025-07-17 (+05:30), the day hard-coded in the mock events;
the absolute epoch value is irrelevant, only offsets within the day matter. -/
def mockDayStart : Int := 0

/-- DeepSeekSchedulingAgent._get_mock_events_for_user: hard-coded events keyed
by substrings of the participant email. -/
def mockEventsForUser (participant : String) : List Event :=
  if strContains "userone" participant then []
  else if strContains "usertwo" participant then
    [⟨mockDayStart + 600, mockDayStart + 630, "Team Meet"⟩]
  else if strContains "userthree" participant then
    [⟨mockDayStart + 600, mockDayStart + 630, "Team Meet"⟩,
     ⟨mockDayStart + 780, mockDayStart + 840, "Lunch with Customers"⟩]
  else []

/-- the per-participant body of DeepSeekSchedulingAgent._get_calendar_data: a
successful fetch yields the retrieved events; an exception (modelled as none)
is caught and falls back to the mock events for that participant. -/
def getCalendarDataFor (participant : String) (fetched : Option (List Event)) :
    List Event :=
  match fetched with
  | some events => events
  | none => mockEventsForUser participant

/-- C1 counterexample: when the Calendar Provider fails, the app service
gives the participant an empty free-slot list, so the participant is NOT
treated as fully free over the (non-empty) bounding window, contrary to the
claim. -/
theorem provider_failure_not_fully_free_cex :
    ¬ specFullyFree 0 1440
        (getCalendarAvailabilityFor "userone.amd@gmail.com" 0 1440 none) := by
  intro h
  obtain ⟨s, hs, _⟩ := h 0 le_rfl (by norm_num)
  simp [getCalendarAvailabilityFor] at hs

/-- C1 (amended): when the Calendar Provider fails for a participant, the run
still succeeds (one response per participant), and the app service gives that
participant empty busy intervals but ALSO empty free intervals, i.e. no
availability at all rather than fully free; the experiment agent instead
falls back to hard-coded mock events, which are non-empty for some users. -/
theorem provider_failure_fail_closed (email : String) (ws we : Int) (hw : ws < we) :
    (getCalendarAvailabilityFor email ws we none).busy_slots = [] ∧
    (getCalendarAvailabilityFor email ws we none).free_slots = [] ∧
    ¬ specFullyFree ws we (getCalendarAvailabilityFor email ws we none) ∧
    (∀ fetches : List (String × Option (List TimeSlot)),
        (getCalendarAvailability ws we fetches).length = fetches.length) ∧
    getCalendarDataFor "usertwo.amd@gmail.com" none ≠ [] := by
  refine ⟨rfl, rfl, ?_, fun fetches => List.length_map _ _, by decide⟩
  intro h
  obtain ⟨s, hs, _⟩ := h ws le_rfl hw
  simp [getCalendarAvailabilityFor] at hs

/-- witness for provider_failure_fail_closed at a concrete window and a
concrete fetch list. -/
theorem provider_failure_fail_closed_witness :
    (0 : Int) < 1440 ∧
    (getCalendarAvailabilityFor "a@b.com" 0 1440 none).busy_slots = [] ∧
    (getCalendarAvailabilityFor "a@b.com" 0 1440 none).free_slots = [] ∧
    ¬ specFullyFree 0 1440 (getCalendarAvailabilityFor "a@b.com" 0 1440 none) ∧
    (getCalendarAvailability 0 1440 [("a@b.com", none), ("c@d.com", some [])]).length
      = [("a@b.com", (none : Option (List TimeSlot))), ("c@d.com", some [])].length ∧
    getCalendarDataFor "usertwo.amd@gmail.com" none ≠ [] :=
  ⟨by norm_num,
    (provider_failure_fail_closed "a@b.com" 0 1440 (by norm_num)).1,
    (provider_failure_fail_closed "a@b.com" 0 1440 (by norm_num)).2.1,
    (provider_failure_fail_closed "a@b.com" 0 1440 (by norm_num)).2.2.1,
    (provider_failure_fail_closed "a@b.com" 0 1440 (by norm_num)).2.2.2.1
      [("a@b.com", none), ("c@d.com", some [])],
    (provider_failure_fail_closed "a@b.com" 0 1440 (by norm_num)).2.2.2.2⟩

/-- the slot dictionaries flowing through SchedulingAgent._analyze_optimal_slots
(start_time and end_time; the duration_minutes entry is determined by them). -/
structure Window where
  start_time : Int
  end_time : Int
deriving DecidableEq, Repr

/-- one intersection step of SchedulingAgent._analyze_optimal_slots: for every
running candidate and every free slot of the next participant, compute the
pairwise overlap; when the overlap is non-empty and at least the required
duration, emit a slot of exactly the required duration starting at the
overlap start. -/
def intersectStep (dur : Int) (common participant : List Window) : List Window :=
  common.flatMap (fun c =>
    participant.filterMap (fun p =>
      let os := max c.start_time p.start_time
      let oe := min c.end_time p.end_time
      if os < oe ∧ oe - os ≥ dur then some ⟨os, os + dur⟩ else none))

/-- the common-slot computation of SchedulingAgent._analyze_optimal_slots:
start from participant 0's free slots and fold the pairwise intersection over
the remaining participants (empty availability data yields no slots). -/
def analyzeCommonSlots (dur : Int) : List (List Window) → List Window
  | [] => []
  | first :: rest => rest.foldl (intersectStep dur) first

/-- C3 counterexample: with three participants, intersecting in a different
order yields a different set of shared windows: reordering the last two
participants turns an empty result into a non-empty one, because each
intersection step truncates overlaps to exactly the required duration. -/
theorem intersection_not_commutative_cex :
    analyzeCommonSlots 60 [[⟨0, 120⟩], [⟨0, 120⟩], [⟨60, 120⟩]] = [] ∧
    analyzeCommonSlots 60 [[⟨0, 120⟩], [⟨60, 120⟩], [⟨0, 120⟩]] = [⟨60, 120⟩] ∧
    List.Perm [[(⟨0, 120⟩ : Window)], [⟨0, 120⟩], [⟨60, 120⟩]]
      [[⟨0, 120⟩], [⟨60, 120⟩], [⟨0, 120⟩]] := by
  refine ⟨by decide, by decide, ?_⟩
  exact List.Perm.cons _ (List.Perm.swap _ _ _)

/-- C3 (amended): the pairwise intersection of exactly two participants is
order-independent as a set of windows; for three or more participants the
order can change the result, because each step truncates each overlap to
exactly the required duration (see the counterexample). -/
theorem intersect_two_comm (dur : Int) (a b : List Window) (w : Window) :
    w ∈ analyzeCommonSlots dur [a, b] ↔ w ∈ analyzeCommonSlots dur [b, a] := by
  show w ∈ intersectStep dur a b ↔ w ∈ intersectStep dur b a
  simp only [intersectStep, List.mem_flatMap, List.mem_filterMap]
  constructor
  · rintro ⟨c, hc, p, hp, h⟩
    refine ⟨p, hp, c, hc, ?_⟩
    rwa [max_comm, min_comm] at h
  · rintro ⟨c, hc, p, hp, h⟩
    refine ⟨p, hp, c, hc, ?_⟩
    rwa [max_comm, min_comm] at h

/-- the parsed_info dictionary of main_vllm_deepseek.py, restricted to the
keys the slot engine reads. -/
structure ParsedInfo where
  time_constraints : String
  optimal_time_preference : String
  urgency : String
  meeting_complexity : String
  attendee_priority : String
deriving DecidableEq, Repr

/-- a participant priority entry of
DeepSeekSchedulingAgent._analyze_participant_priorities. -/
structure PriorityInfo where
  level : String
  weight : Int
deriving DecidableEq, Repr

/-- DeepSeekSchedulingAgent._analyze_participant_priorities for one
participant: authority level and weight from substrings of the lowercased
part of the email before the at sign. -/
def analyzeParticipantPriority (participant : String) : PriorityInfo :=
  let pfx := ((participant.splitOn "@").headD "").toLower
  if ["admin", "ceo", "director", "head"].any (fun t => strContains t pfx) then
    ⟨"critical", 10⟩
  else if ["manager", "lead", "senior"].any (fun t => strContains t pfx) then
    ⟨"high", 8⟩
  else if ["team", "dev", "engineer"].any (fun t => strContains t pfx) then
    ⟨"medium", 6⟩
  else ⟨"standard", 5⟩

/-- DeepSeekSchedulingAgent._analyze_participant_priorities over all
participants, as an association list. -/
def analyzeParticipantPriorities (participants : List String) :
    List (String × PriorityInfo) :=
  participants.map (fun p => (p, analyzeParticipantPriority p))

/-- priorities.get(participant, {}).get(..., default): weight defaults to 5,
level to standard. -/
def priorityOf (priorities : List (String × PriorityInfo)) (p : String) :
    PriorityInfo :=
  (priorities.lookup p).getD ⟨"standard", 5⟩

/-- a conflict record emitted by DeepSeekSchedulingAgent._calculate_slot_score. -/
structure ConflictRecord where
  participant : String
  event : String
  severity : Int
  priority_level : String
deriving DecidableEq, Repr

/-- the score/conflicts pair returned by
DeepSeekSchedulingAgent._calculate_slot_score (the reasoning strings carry no
further information and are omitted). -/
structure SlotScore where
  total_score : Int
  conflicts : List ConflictRecord
deriving DecidableEq, Repr

/-- DeepSeekSchedulingAgent._calculate_slot_score: start from 100, subtract
5 x participant weight for every overlapping event of every participant,
recording a conflict; then add the preference, urgency and complexity
bonuses; finally clamp to at least 0. -/
def calcSlotScore (slot_start slot_end : Int)
    (calendar : List (String × List Event))
    (priorities : List (String × PriorityInfo)) (info : ParsedInfo) : SlotScore :=
  let conflicts := calendar.flatMap (fun pe =>
    let pr := priorityOf priorities pe.1
    pe.2.filterMap (fun e =>
      if slot_start < e.EndTime ∧ slot_end > e.StartTime then
        some ⟨pe.1, e.Summary, pr.weight * 5, pr.level⟩
      else none))
  let afterConflicts : Int := 100 - (conflicts.map (fun c => c.severity)).sum
  let h := hourOf slot_start
  let prefBonus : Int :=
    if info.optimal_time_preference = "morning" ∧ 9 ≤ h ∧ h ≤ 11 then 10
    else if info.optimal_time_preference = "afternoon" ∧ 14 ≤ h ∧ h ≤ 16 then 10
    else 0
  let urgencyBonus : Int := if info.urgency = "high" then 15 else 0
  let complexityBonus : Int :=
    if info.meeting_complexity = "complex" ∧ 9 ≤ h ∧ h ≤ 11 then 5 else 0
  ⟨max 0 (afterConflicts + prefBonus + urgencyBonus + complexityBonus), conflicts⟩

/-- a scored candidate slot of
DeepSeekSchedulingAgent._calculate_optimal_time_slots (dictionary keys start,
end, score, conflicts). -/
structure ScoredSlot where
  start : Int
  endTime : Int
  score : Int
  conflicts : List ConflictRecord
deriving DecidableEq, Repr

/-- descending-score comparison; Python's stable sort(key=score, reverse=True)
is insertionSort with this relation. -/
def scoreGE (a b : ScoredSlot) : Prop := b.score ≤ a.score

instance : DecidableRel scoreGE := fun a b =>
  inferInstanceAs (Decidable (b.score ≤ a.score))

instance : IsTotal ScoredSlot scoreGE := ⟨fun a b => le_total b.score a.score⟩

instance : IsTrans ScoredSlot scoreGE := ⟨fun _ _ _ h h' => le_trans h' h⟩

/-- the candidate start hours of
DeepSeekSchedulingAgent._calculate_optimal_time_slots: hour 11 exactly when
the literal string 11:00 occurs in the time constraints, otherwise a fixed
set determined by the day-part preference. -/
def candidateTimes (info : ParsedInfo) : List Int :=
  if strContains "11:00" info.time_constraints then [11]
  else if info.optimal_time_preference = "morning" then [9, 10, 11]
  else if info.optimal_time_preference = "afternoon" then [14, 15, 16]
  else [9, 10, 11, 14, 15, 16]

/-- DeepSeekSchedulingAgent._calculate_optimal_time_slots: build one slot per
candidate hour on the date of start_time (the end of the window plays no
role), score each with _calculate_slot_score, and sort by score descending
(stable). -/
def calcOptimalTimeSlots (start_time : Int) (duration : Int) (info : ParsedInfo)
    (calendar : List (String × List Event))
    (priorities : List (String × PriorityInfo)) : List ScoredSlot :=
  let slots := (candidateTimes info).map (fun h =>
    let ss := dayStart start_time + 60 * h
    let se := ss + duration
    let sc := calcSlotScore ss se calendar priorities info
    ⟨ss, se, sc.total_score, sc.conflicts⟩)
  List.insertionSort scoreGE slots

/-- the strategy selection of
DeepSeekSchedulingAgent._intelligent_conflict_resolution, a fixed lookup over
(urgency, attendee authority). -/
def selectStrategy (urgency authority : String) : String :=
  if urgency = "high" ∧ authority = "high" then "override_lower_priority"
  else if urgency = "high" then "find_immediate_alternative"
  else if authority = "high" then "executive_priority"
  else "collaborative_optimization"

/-- the fields of the resolution dictionary of
DeepSeekSchedulingAgent._intelligent_conflict_resolution that the claims
concern. -/
structure Resolution where
  recommended_slot : Option ScoredSlot
  conflicts_detected : Bool
  strategy_used : String
deriving Repr

/-- DeepSeekSchedulingAgent._intelligent_conflict_resolution: recommend the
first (hence top-scored) slot and pick the strategy from urgency and
attendee_priority. -/
def intelligentConflictResolution (optimal_slots : List ScoredSlot)
    (info : ParsedInfo) : Resolution :=
  { recommended_slot := optimal_slots.head?
    conflicts_detected :=
      match optimal_slots.head? with
      | some s => decide (0 < s.conflicts.length)
      | none => false
    strategy_used := selectStrategy info.urgency info.attendee_priority }

/-- an alternative slot generated by
DeepSeekSchedulingAgent._generate_intelligent_alternatives. -/
structure AltSlot where
  start : Int
  endTime : Int
  score : Int
  reason : String
deriving DecidableEq, Repr

/-- DeepSeekSchedulingAgent._generate_intelligent_alternatives: offsets of
+1h, +2h, -1h, +1day from the recommended start; the score is the fixed base
75, raised to 85 exactly for the +1h offset; alternatives starting outside
business hours 9..17 are dropped, and the first three surviving ones are
returned. -/
def generateIntelligentAlternatives (recommended : Option ScoredSlot)
    (duration : Int) : List AltSlot :=
  match recommended with
  | none => []
  | some rec =>
      let strategies : List (Int × Int × String) :=
        [(60, 85, "One hour later - minimal disruption"),
         (120, 75, "Two hours later - afternoon alternative"),
         (-60, 75, "One hour earlier - morning alternative"),
         (1440, 75, "Next day - same time slot")]
      (strategies.filterMap (fun s =>
        let t := rec.start + s.1
        if 9 ≤ hourOf t ∧ hourOf t ≤ 17 then
          some ⟨t, t + duration, s.2.1, s.2.2⟩
        else none)).take 3

/-- C4 counterexample: with the specific hour 10:00 mentioned in the time
constraints, the generator does not produce exactly hour 10 but the whole
flexible set (only the literal 11:00 is recognised); and for a bounding
window starting at 13:00 the 9:00 candidate lies outside the window yet is
neither clipped nor discarded. -/
theorem candidate_hours_cex :
    candidateTimes ⟨"10:00", "flexible", "medium", "moderate", "medium"⟩
        ≠ [10] ∧
    (9 : Int) ∈ candidateTimes ⟨"10:00", "flexible", "medium", "moderate", "medium"⟩ ∧
    (calcOptimalTimeSlots 780 30 ⟨"10:00", "flexible", "medium", "moderate", "medium"⟩
          [] []).map (fun s => s.start)
        = [540, 600, 660, 840, 900, 960] ∧
    ¬ ((780 : Int) ≤ 540) := by
  refine ⟨by decide, by decide, by decide, by decide⟩

/-- C4 (amended): the candidate hours are [11] exactly when the literal
string 11:00 occurs in the time constraints (any other specific hour is not
recognised); otherwise they are 9,10,11 for a morning preference, 14,15,16
for an afternoon preference and 9,10,11,14,15,16 otherwise, all within 9..17;
and one candidate per hour, placed on the date of the window start, always
survives into the output: no clipping to and no discarding against shared
windows happens. -/
theorem candidate_hours_amended (info : ParsedInfo) (st dur : Int)
    (cal : List (String × List Event)) (pr : List (String × PriorityInfo)) :
    (strContains "11:00" info.time_constraints = true → candidateTimes info = [11]) ∧
    (strContains "11:00" info.time_constraints = false →
      (info.optimal_time_preference = "morning" → candidateTimes info = [9, 10, 11]) ∧
      (info.optimal_time_preference = "afternoon" → candidateTimes info = [14, 15, 16]) ∧
      (info.optimal_time_preference ≠ "morning" →
        info.optimal_time_preference ≠ "afternoon" →
        candidateTimes info = [9, 10, 11, 14, 15, 16])) ∧
    (∀ h ∈ candidateTimes info, 9 ≤ h ∧ h ≤ 17) ∧
    List.Perm ((calcOptimalTimeSlots st dur info cal pr).map (fun s => s.start))
      ((candidateTimes info).map (fun h => dayStart st + 60 * h)) := by
  refine ⟨?_, ?_, ?_, ?_⟩
  · intro h; simp [candidateTimes, h]
  · intro h
    refine ⟨fun hm => by simp [candidateTimes, h, hm], fun ha => ?_, fun hm ha => ?_⟩
    · have : info.optimal_time_preference ≠ "morning" := by
        intro hc; rw [hc] at ha; exact absurd ha (by decide)
      simp [candidateTimes, h, this, ha]
    · simp [candidateTimes, h, hm, ha]
  · unfold candidateTimes
    split_ifs <;> (intro h hm; simp only [List.mem_cons, List.not_mem_nil, or_false] at hm
                   omega)
  · unfold calcOptimalTimeSlots
    have hperm := (List.perm_insertionSort scoreGE
      ((candidateTimes info).map (fun h =>
        let ss := dayStart st + 60 * h
        let se := ss + dur
        let sc := calcSlotScore ss se cal pr info
        ⟨ss, se, sc.total_score, sc.conflicts⟩))).map (fun s : ScoredSlot => s.start)
    refine hperm.trans ?_
    rw [List.map_map]
    exact List.Perm.refl _

/-- witness for candidate_hours_amended at a concrete requirement mentioning
11:00 and a concrete morning requirement. -/
theorem candidate_hours_amended_witness :
    candidateTimes ⟨"meet at 11:00", "flexible", "medium", "moderate", "medium"⟩
        = [11] ∧
    candidateTimes ⟨"", "morning", "medium", "moderate", "medium"⟩ = [9, 10, 11] ∧
    List.Perm
      ((calcOptimalTimeSlots 0 30
            ⟨"", "morning", "medium", "moderate", "medium"⟩ [] []).map
        (fun s => s.start))
      ((candidateTimes ⟨"", "morning", "medium", "moderate", "medium"⟩).map
        (fun h => dayStart 0 + 60 * h)) :=
  ⟨(candidate_hours_amended ⟨"meet at 11:00", "flexible", "medium", "moderate",
      "medium"⟩ 0 30 [] []).1 (by decide),
   ((candidate_hours_amended ⟨"", "morning", "medium", "moderate", "medium"⟩
      0 30 [] []).2.1 (by decide)).1 (by decide),
   (candidate_hours_amended ⟨"", "morning", "medium", "moderate", "medium"⟩
      0 30 [] []).2.2.2⟩

theorem orderedInsert_last (a : ScoredSlot) (l : List ScoredSlot)
    (h : ∀ b ∈ l, ¬ scoreGE a b) :
    List.orderedInsert scoreGE a l = l ++ [a] := by
  induction l with
  | nil => rfl
  | cons b t ih =>
      rw [List.orderedInsert, if_neg (h b (List.mem_cons_self _ _)),
        ih (fun x hx => h x (List.mem_cons_of_mem _ hx)), List.cons_append]

/-- C5: with participant X busy 09:00..10:00 (priority weight w, any level)
and a 30-minute requirement on the same day, the pipeline produces exactly
one conflict record for X at the 9:00 candidate, with severity 5 x w
subtracted from its score, while the 10:00 candidate (start equal to the busy
end, half-open overlap test) and all later candidates have zero conflicts and
are ranked above the 9:00 candidate; moreover every weight produced by
_analyze_participant_priorities is at least 5, so the hypothesis 1 <= w
covers all real participants. -/
theorem scenario_b_conflict_and_ranking (X lvl : String) (w : Int) (hw : 1 ≤ w) :
    calcOptimalTimeSlots 0 30 ⟨"", "flexible", "medium", "moderate", "medium"⟩
        [(X, [⟨540, 600, "Team Meet"⟩])] [(X, ⟨lvl, w⟩)]
      = [⟨600, 630, 100, []⟩, ⟨660, 690, 100, []⟩, ⟨840, 870, 100, []⟩,
         ⟨900, 930, 100, []⟩, ⟨960, 990, 100, []⟩,
         ⟨540, 570, max 0 (100 - w * 5), [⟨X, "Team Meet", w * 5, lvl⟩]⟩] ∧
    (∀ p : String, 5 ≤ (analyzeParticipantPriority p).weight) := by
  constructor
  · have hlk : priorityOf [(X, ⟨lvl, w⟩)] X = ⟨lvl, w⟩ := by
      simp [priorityOf, List.lookup]
    have h9 : calcSlotScore 540 570 [(X, [⟨540, 600, "Team Meet"⟩])]
        [(X, ⟨lvl, w⟩)] ⟨"", "flexible", "medium", "moderate", "medium"⟩
        = ⟨max 0 (100 - w * 5), [⟨X, "Team Meet", w * 5, lvl⟩]⟩ := by
      simp [calcSlotScore, hlk, hourOf]
    have hno : ∀ ss se : Int, 600 ≤ ss →
        calcSlotScore ss se [(X, [⟨540, 600, "Team Meet"⟩])]
          [(X, ⟨lvl, w⟩)] ⟨"", "flexible", "medium", "moderate", "medium"⟩
        = ⟨100, []⟩ := by
      intro ss se hss
      have hcond : ¬ (ss < 600 ∧ (540 : Int) < se) ∨ True := Or.inr trivial
      have hcond2 : ¬ (ss < (600 : Int) ∧ (540 : Int) < se) := by omega
      simp [calcSlotScore, hlk, hcond2]
    have hds : dayStart 0 = 0 := by decide
    have hcand : candidateTimes ⟨"", "flexible", "medium", "moderate", "medium"⟩
        = [9, 10, 11, 14, 15, 16] := by decide
    unfold calcOptimalTimeSlots
    rw [hcand]
    simp only [List.map, hds]
    norm_num
    rw [h9, hno 600 630 (by norm_num), hno 660 690 (by norm_num),
      hno 840 870 (by norm_num), hno 900 930 (by norm_num),
      hno 960 990 (by norm_num)]
    split_ifs with h1 h2 h3 h4 h5 <;>
      first
        | rfl
        | (exfalso; simp only [scoreGE] at h1 h2 h3 h4 h5 <;> omega)
        | (exfalso; simp only [scoreGE] at *; omega)
  · intro p
    unfold analyzeParticipantPriority
    dsimp only
    split_ifs <;> norm_num

/-- witness for scenario_b_conflict_and_ranking at a concrete participant of
weight 5. -/
theorem scenario_b_conflict_and_ranking_witness :
    (1 : Int) ≤ 5 ∧
    calcOptimalTimeSlots 0 30 ⟨"", "flexible", "medium", "moderate", "medium"⟩
        [("alice@example.com", [⟨540, 600, "Team Meet"⟩])]
        [("alice@example.com", ⟨"standard", 5⟩)]
      = [⟨600, 630, 100, []⟩, ⟨660, 690, 100, []⟩, ⟨840, 870, 100, []⟩,
         ⟨900, 930, 100, []⟩, ⟨960, 990, 100, []⟩,
         ⟨540, 570, max 0 (100 - 5 * 5),
           [⟨"alice@example.com", "Team Meet", 5 * 5, "standard"⟩]⟩] ∧
    5 ≤ (analyzeParticipantPriority "bob@example.com").weight :=
  ⟨by norm_num,
    (scenario_b_conflict_and_ranking "alice@example.com" "standard" 5 (by norm_num)).1,
    (scenario_b_conflict_and_ranking "alice@example.com" "standard" 5
      (by norm_num)).2 "bob@example.com"⟩

/-- SchedulingAgent._score_time_slot of app/services/agent_service.py: the
additive fractional score over time of day, weekday, priority and lunch
avoidance (Python floats modelled as rationals; all comparisons below are far
from rounding error). -/
def scoreTimeSlot (start_time : Int) (priority : String) : ℚ :=
  let hour := hourOf start_time
  let s1 : ℚ :=
    if 9 ≤ hour ∧ hour ≤ 11 then 0.3
    else if 13 ≤ hour ∧ hour ≤ 15 then 0.2
    else if 8 ≤ hour ∧ hour ≤ 16 then 0.1
    else 0
  let weekday := weekdayOf start_time
  let s2 : ℚ :=
    if weekday = 1 ∨ weekday = 2 ∨ weekday = 3 then 0.2
    else if weekday = 0 ∨ weekday = 4 then 0.1
    else 0
  let s3 : ℚ :=
    if priority = "urgent" then (if hour ≤ 12 then 0.3 else 0.1)
    else if priority = "low" then (if 14 ≤ hour then 0.2 else 0)
    else 0
  let s4 : ℚ := if 12 ≤ hour ∧ hour ≤ 13 then -0.2 else 0
  s1 + s2 + s3 + s4

/-- C6 counterexample: in the experiment scorer, with urgency high, no
conflicts and a flexible preference, the hour 9 candidate does NOT score
strictly higher than the hour 15 candidate: both score exactly 115, because
the urgency adjustment is a flat +15 with no early-hour bonus. -/
theorem urgent_hour9_not_above_hour15_cex :
    ¬ ((calcSlotScore 900 930 [] []
          ⟨"", "flexible", "high", "moderate", "medium"⟩).total_score
        < (calcSlotScore 540 570 [] []
          ⟨"", "flexible", "high", "moderate", "medium"⟩).total_score) ∧
    (calcSlotScore 540 570 [] []
        ⟨"", "flexible", "high", "moderate", "medium"⟩).total_score = 115 ∧
    (calcSlotScore 900 930 [] []
        ⟨"", "flexible", "high", "moderate", "medium"⟩).total_score = 115 := by
  refine ⟨by decide, by decide, by decide⟩

/-- C6 (amended): in the experiment scorer the urgency adjustment for
urgency high is a flat +15 independent of the hour, so hour 9 and hour 15 tie
when everything else is equal; in the app scorer an urgent priority adds 0.3
for hours up to 12 and 0.1 later (plus the hour bonuses), so there the hour 9
candidate scores strictly higher than the hour 15 candidate on the same day. -/
theorem urgency_scoring_flat_vs_early (d : Int) :
    (calcSlotScore (1440 * d + 540) (1440 * d + 570) [] []
        ⟨"", "flexible", "high", "moderate", "medium"⟩).total_score
      = (calcSlotScore (1440 * d + 900) (1440 * d + 930) [] []
        ⟨"", "flexible", "high", "moderate", "medium"⟩).total_score ∧
    scoreTimeSlot (1440 * d + 900) "urgent" < scoreTimeSlot (1440 * d + 540) "urgent" := by
  have hh9 : hourOf (1440 * d + 540) = 9 := by unfold hourOf; omega
  have hh15 : hourOf (1440 * d + 900) = 15 := by unfold hourOf; omega
  have hwd : weekdayOf (1440 * d + 540) = weekdayOf (1440 * d + 900) := by
    unfold weekdayOf dayOf; omega
  constructor
  · simp only [calcSlotScore, hh9, hh15]
    simp
  · simp only [scoreTimeSlot, hh9, hh15, hwd]
    norm_num
    split_ifs <;> norm_num

/-- C7: the conflict resolver recommends the top-ranked candidate of the
scored pipeline (its score is maximal among all candidates), and selects the
strategy by the fixed lookup over (urgency, authority): high/high yields
override_lower_priority, high urgency with any other authority yields
find_immediate_alternative, high authority with any other urgency yields
executive_priority, and everything else yields collaborative_optimization. -/
theorem conflict_resolution_top_pick_and_strategy :
    (∀ (st dur : Int) (info : ParsedInfo) (cal : List (String × List Event))
        (pr : List (String × PriorityInfo)) (s : ScoredSlot),
      (intelligentConflictResolution (calcOptimalTimeSlots st dur info cal pr)
          info).recommended_slot = some s →
      s ∈ calcOptimalTimeSlots st dur info cal pr ∧
        ∀ x ∈ calcOptimalTimeSlots st dur info cal pr, x.score ≤ s.score) ∧
    (∀ slots : List ScoredSlot, ∀ info : ParsedInfo,
      (info.urgency = "high" → info.attendee_priority = "high" →
        (intelligentConflictResolution slots info).strategy_used
          = "override_lower_priority") ∧
      (info.urgency = "high" → info.attendee_priority ≠ "high" →
        (intelligentConflictResolution slots info).strategy_used
          = "find_immediate_alternative") ∧
      (info.urgency ≠ "high" → info.attendee_priority = "high" →
        (intelligentConflictResolution slots info).strategy_used
          = "executive_priority") ∧
      (info.urgency ≠ "high" → info.attendee_priority ≠ "high" →
        (intelligentConflictResolution slots info).strategy_used
          = "collaborative_optimization")) := by
  constructor
  · intro st dur info cal pr s hrec
    simp only [intelligentConflictResolution] at hrec
    unfold calcOptimalTimeSlots at hrec ⊢
    have hsorted := List.sorted_insertionSort scoreGE
      ((candidateTimes info).map (fun h =>
        let ss := dayStart st + 60 * h
        let se := ss + dur
        let sc := calcSlotScore ss se cal pr info
        ⟨ss, se, sc.total_score, sc.conflicts⟩))
    set l := List.insertionSort scoreGE
      ((candidateTimes info).map (fun h =>
        let ss := dayStart st + 60 * h
        let se := ss + dur
        let sc := calcSlotScore ss se cal pr info
        ⟨ss, se, sc.total_score, sc.conflicts⟩)) with hl
    match hm : l with
    | [] => simp at hrec
    | a :: t =>
        simp only [List.head?_cons, Option.some.injEq] at hrec
        subst hrec
        constructor
        · exact List.mem_cons_self _ _
        · intro x hx
          rcases List.mem_cons.mp hx with h | h
          · rw [h]
          · exact (List.pairwise_cons.mp hsorted).1 x h
  · intro slots info
    refine ⟨fun hu ha => ?_, fun hu ha => ?_, fun hu ha => ?_, fun hu ha => ?_⟩ <;>
      simp [intelligentConflictResolution, selectStrategy, hu, ha]

/-- witness for conflict_resolution_top_pick_and_strategy: the concrete
no-calendar pipeline recommends the first slot with maximal score 100, and
the strategy lookup is exercised at concrete urgency/authority pairs. -/
theorem conflict_resolution_top_pick_and_strategy_witness :
    (⟨540, 570, 100, []⟩ : ScoredSlot) ∈ calcOptimalTimeSlots 0 30
        ⟨"", "flexible", "medium", "moderate", "medium"⟩ [] [] ∧
    (⟨960, 990, 100, []⟩ : ScoredSlot).score
      ≤ (⟨540, 570, 100, []⟩ : ScoredSlot).score ∧
    (intelligentConflictResolution []
        ⟨"", "flexible", "high", "moderate", "low"⟩).strategy_used
      = "find_immediate_alternative" :=
  ⟨(conflict_resolution_top_pick_and_strategy.1 0 30
      ⟨"", "flexible", "medium", "moderate", "medium"⟩ [] [] ⟨540, 570, 100, []⟩
      (by decide)).1,
    (conflict_resolution_top_pick_and_strategy.1 0 30
      ⟨"", "flexible", "medium", "moderate", "medium"⟩ [] [] ⟨540, 570, 100, []⟩
      (by decide)).2 ⟨960, 990, 100, []⟩ (by decide),
    (conflict_resolution_top_pick_and_strategy.2 []
      ⟨"", "flexible", "high", "moderate", "low"⟩).2.1 rfl (by decide)⟩

/-- C8 counterexample: the +1h alternative of a 10:00 recommendation carries
the fixed score 85, while the slot scorer of 4.4 applied to the same
11:00..11:30 slot (no conflicts, flexible preference) yields 100: the
alternatives are not re-scored by the slot scorer. -/
theorem alternatives_not_rescored_cex :
    (generateIntelligentAlternatives (some ⟨600, 630, 100, []⟩) 30).map
        (fun a => (a.start, a.endTime, a.score))
      = [(660, 690, 85), (720, 750, 75), (540, 570, 75)] ∧
    (calcSlotScore 660 690 [] []
        ⟨"", "flexible", "medium", "moderate", "medium"⟩).total_score = 100 ∧
    ¬ ((85 : Int) = 100) := by
  refine ⟨by decide, by decide, by decide⟩

theorem pairwise_score_const (l : List AltSlot) (h : ∀ x ∈ l, x.score = 75) :
    List.Pairwise (fun a b : AltSlot => b.score ≤ a.score) l := by
  induction l with
  | nil => exact List.Pairwise.nil
  | cons a t ih =>
      refine List.Pairwise.cons (fun y hy => ?_)
        (ih (fun x hx => h x (List.mem_cons_of_mem _ hx)))
      rw [h a (List.mem_cons_self _ _), h y (List.mem_cons_of_mem _ hy)]

/-- C8 (amended): at most 3 alternatives are generated, derived from the
recommended start by the fixed offsets +1h, +2h, -1h, +1day with the same
duration; every alternative whose start hour falls outside 9..17 is
discarded; but instead of re-scoring by the slot scorer of 4.4 each surviving
alternative carries a fixed score, 85 for the +1h offset and 75 otherwise,
which incidentally leaves the returned list in non-increasing score order. -/
theorem alternatives_fixed_scores (rec : ScoredSlot) (dur : Int) :
    (generateIntelligentAlternatives (some rec) dur).length ≤ 3 ∧
    List.Pairwise (fun a b : AltSlot => b.score ≤ a.score)
      (generateIntelligentAlternatives (some rec) dur) ∧
    ∀ a ∈ generateIntelligentAlternatives (some rec) dur,
      (a.start - rec.start = 60 ∨ a.start - rec.start = 120 ∨
        a.start - rec.start = -60 ∨ a.start - rec.start = 1440) ∧
      a.endTime = a.start + dur ∧
      9 ≤ hourOf a.start ∧ hourOf a.start ≤ 17 ∧
      a.score = (if a.start - rec.start = 60 then 85 else 75) := by
  refine ⟨List.length_take_le _ _, ?_, ?_⟩
  · refine List.Pairwise.sublist (List.take_sublist _ _) ?_
    show List.Pairwise _ (List.filterMap _ _)
    have hsub : ∀ b ∈ List.filterMap (fun s : Int × Int × String =>
        let t := rec.start + s.1
        if 9 ≤ hourOf t ∧ hourOf t ≤ 17 then
          some (⟨t, t + dur, s.2.1, s.2.2⟩ : AltSlot)
        else none)
        [(120, 75, "Two hours later - afternoon alternative"),
         (-60, 75, "One hour earlier - morning alternative"),
         (1440, 75, "Next day - same time slot")], b.score = 75 := by
      intro b hb
      simp only [List.mem_filterMap, List.mem_cons, List.not_mem_nil, or_false] at hb
      obtain ⟨s, hs, hfs⟩ := hb
      rcases hs with h | h | h <;>
        (subst h; simp only [Option.ite_none_right_eq_some, Option.some.injEq] at hfs
         rw [← hfs.2])
    rw [List.filterMap_cons]
    dsimp only
    split_ifs with h1
    · refine List.Pairwise.cons (fun y hy => ?_) (pairwise_score_const _ hsub)
      rw [hsub y hy]
      norm_num
    · exact pairwise_score_const _ hsub
  · intro a ha
    have ha2 := List.mem_of_mem_take ha
    simp only [List.mem_filterMap, List.mem_cons, List.not_mem_nil, or_false] at ha2
    obtain ⟨s, hs, hfs⟩ := ha2
    rcases hs with h | h | h | h <;>
      (subst h
       simp only [Option.ite_none_right_eq_some, Option.some.injEq] at hfs
       obtain ⟨⟨hg1, hg2⟩, heq⟩ := hfs
       subst heq
       dsimp only
       refine ⟨by omega, rfl, hg1, hg2, ?_⟩)
    · rw [if_pos (by omega)]
    · rw [if_neg (by omega)]
    · rw [if_neg (by omega)]
    · rw [if_neg (by omega)]

/-- witness for alternatives_fixed_scores at a concrete 10:00 recommendation
and its concrete +1h alternative. -/
theorem alternatives_fixed_scores_witness :
    (generateIntelligentAlternatives (some ⟨600, 630, 100, []⟩) 30).length ≤ 3 ∧
    (((⟨660, 690, 85, "One hour later - minimal disruption"⟩ : AltSlot).start
          - (600 : Int) = 60 ∨
        (⟨660, 690, 85, "One hour later - minimal disruption"⟩ : AltSlot).start
          - (600 : Int) = 120 ∨
        (⟨660, 690, 85, "One hour later - minimal disruption"⟩ : AltSlot).start
          - (600 : Int) = -60 ∨
        (⟨660, 690, 85, "One hour later - minimal disruption"⟩ : AltSlot).start
          - (600 : Int) = 1440) ∧
      (⟨660, 690, 85, "One hour later - minimal disruption"⟩ : AltSlot).endTime
        = (⟨660, 690, 85, "One hour later - minimal disruption"⟩ : AltSlot).start + 30 ∧
      9 ≤ hourOf (⟨660, 690, 85, "One hour later - minimal disruption"⟩ : AltSlot).start ∧
      hourOf (⟨660, 690, 85, "One hour later - minimal disruption"⟩ : AltSlot).start ≤ 17 ∧
      (⟨660, 690, 85, "One hour later - minimal disruption"⟩ : AltSlot).score
        = (if (⟨660, 690, 85, "One hour later - minimal disruption"⟩ : AltSlot).start
              - (600 : Int) = 60 then 85 else 75)) :=
  ⟨(alternatives_fixed_scores ⟨600, 630, 100, []⟩ 30).1,
    (alternatives_fixed_scores ⟨600, 630, 100, []⟩ 30).2.2
      ⟨660, 690, 85, "One hour later - minimal disruption"⟩ (by decide)⟩

/-- a stored MeetingProposal, reduced to the fields confirm_meeting reads and
writes: the suggested slots and the status string. -/
structure ProposalRec where
  suggested_slots : List TimeSlot
  status : String
deriving DecidableEq, Repr

/-- the possible outcomes of SchedulingAgent.confirm_meeting: the not-found
and invalid-slot-index error dictionaries, a Python IndexError raised by a
too-negative index, a failed calendar-event creation, or a successful
confirmation of a slot. -/
inductive ConfirmOutcome where
  | notFound
  | invalidSlotIndex
  | indexError
  | eventFailed
  | confirmed (slot : TimeSlot)
deriving DecidableEq, Repr

/-- Python list indexing proposal.suggested_slots[slot_index]: non-negative
indices from the front, negative indices from the back, IndexError (none)
otherwise. -/
def pyIndex (l : List TimeSlot) (i : Int) : Option TimeSlot :=
  if 0 ≤ i then l[i.toNat]?
  else if 0 ≤ i + l.length then l[(i + l.length).toNat]?
  else none

/-- updates the stored proposal's status, modelling
proposal.status = "confirmed". -/
def setStatus (proposals : List (String × ProposalRec)) (pid : String)
    (status : String) : List (String × ProposalRec) :=
  proposals.map (fun pr => if pr.1 = pid then (pr.1, ⟨pr.2.suggested_slots, status⟩) else pr)

/-- SchedulingAgent.confirm_meeting: look the proposal up by id (not found is
an error); reject slot_index >= len(suggested_slots) as an invalid slot
index; otherwise select the slot by Python indexing and create the calendar
event (its success is the event_ok parameter); on success the proposal status
becomes confirmed.  There is no check of the current status. -/
def confirm_meeting (proposals : List (String × ProposalRec)) (pid : String)
    (slot_index : Int) (event_ok : Bool) :
    ConfirmOutcome × List (String × ProposalRec) :=
  match proposals.lookup pid with
  | none => (.notFound, proposals)
  | some prop =>
      if slot_index ≥ prop.suggested_slots.length then (.invalidSlotIndex, proposals)
      else
        match pyIndex prop.suggested_slots slot_index with
        | none => (.indexError, proposals)
        | some slot =>
            if event_ok then (.confirmed slot, setStatus proposals pid "confirmed")
            else (.eventFailed, proposals)

/-- C9 counterexample: confirming a proposal that is already in the confirmed
state is not rejected with an invalid-state-transition error: the
confirmation simply runs again and succeeds. -/
theorem confirm_already_confirmed_cex :
    (confirm_meeting [("p1", ⟨[⟨540, 570, true⟩], "confirmed"⟩)] "p1" 0 true).1
      = ConfirmOutcome.confirmed ⟨540, 570, true⟩ := by
  decide

/-- C9 (amended): confirming an unknown proposal id fails with the not-found
error and leaves the store unchanged, and a slot index of at least the number
of suggested slots fails with the invalid-slot-index error and leaves the
store unchanged; but there is no terminal-state guard: confirming a proposal
whose status is already confirmed passes both checks and performs the
confirmation again. -/
theorem confirm_guards (ps : List (String × ProposalRec)) (pid : String)
    (idx : Int) (ok : Bool) :
    (ps.lookup pid = none → confirm_meeting ps pid idx ok = (.notFound, ps)) ∧
    (∀ prop : ProposalRec, ps.lookup pid = some prop →
      idx ≥ prop.suggested_slots.length →
      confirm_meeting ps pid idx ok = (.invalidSlotIndex, ps)) ∧
    (∀ (prop : ProposalRec) (slot : TimeSlot), ps.lookup pid = some prop →
      prop.status = "confirmed" →
      ¬ idx ≥ prop.suggested_slots.length →
      pyIndex prop.suggested_slots idx = some slot →
      (confirm_meeting ps pid idx true).1 = ConfirmOutcome.confirmed slot) := by
  refine ⟨fun h => ?_, fun prop h hidx => ?_, fun prop slot h _ hidx hslot => ?_⟩
  · simp [confirm_meeting, h]
  · simp [confirm_meeting, h, hidx]
  · simp [confirm_meeting, h, hidx, hslot]

/-- witness for confirm_guards on a concrete store holding one
already-confirmed proposal. -/
theorem confirm_guards_witness :
    confirm_meeting [("p1", (⟨[⟨540, 570, true⟩], "confirmed"⟩ : ProposalRec))]
        "zz" 0 true
      = (.notFound, [("p1", ⟨[⟨540, 570, true⟩], "confirmed"⟩)]) ∧
    confirm_meeting [("p1", (⟨[⟨540, 570, true⟩], "confirmed"⟩ : ProposalRec))]
        "p1" 5 true
      = (.invalidSlotIndex, [("p1", ⟨[⟨540, 570, true⟩], "confirmed"⟩)]) ∧
    (confirm_meeting [("p1", (⟨[⟨540, 570, true⟩], "confirmed"⟩ : ProposalRec))]
        "p1" 0 true).1 = ConfirmOutcome.confirmed ⟨540, 570, true⟩ :=
  ⟨(confirm_guards [("p1", ⟨[⟨540, 570, true⟩], "confirmed"⟩)] "zz" 0 true).1
      (by decide),
   (confirm_guards [("p1", ⟨[⟨540, 570, true⟩], "confirmed"⟩)] "p1" 5 true).2.1
      ⟨[⟨540, 570, true⟩], "confirmed"⟩ (by decide) (by decide),
   (confirm_guards [("p1", ⟨[⟨540, 570, true⟩], "confirmed"⟩)] "p1" 0 true).2.2
      ⟨[⟨540, 570, true⟩], "confirmed"⟩ ⟨540, 570, true⟩ (by decide) rfl
      (by decide) (by decide)⟩

/-- C10: a negative slot index passes the validation (the only bound check is
slot_index >= len(suggested_slots)), and Python negative indexing selects the
slot counted from the end of the list, on which the confirmation then
proceeds; it is never rejected as an invalid slot index. -/
theorem confirm_negative_index (ps : List (String × ProposalRec)) (pid : String)
    (idx : Int) (prop : ProposalRec)
    (h : ps.lookup pid = some prop) (hneg : idx < 0)
    (hrange : 0 ≤ idx + (prop.suggested_slots.length : Int)) :
    (confirm_meeting ps pid idx true).1
      = (match prop.suggested_slots[(idx + (prop.suggested_slots.length : Int)).toNat]? with
         | some slot => ConfirmOutcome.confirmed slot
         | none => ConfirmOutcome.indexError) ∧
    (confirm_meeting ps pid idx true).1 ≠ ConfirmOutcome.invalidSlotIndex := by
  have hlen : (idx + (prop.suggested_slots.length : Int)).toNat
      < prop.suggested_slots.length := by omega
  have hsome := List.getElem?_eq_getElem hlen
  have h1 : ¬ idx ≥ (prop.suggested_slots.length : Int) := by omega
  have h2 : ¬ (0 ≤ idx) := by omega
  constructor
  · simp [confirm_meeting, h, h1, pyIndex, h2, hrange, hsome]
  · simp [confirm_meeting, h, h1, pyIndex, h2, hrange, hsome]

/-- witness for confirm_negative_index: slot index -1 on a two-slot pending
proposal confirms the second (last) slot. -/
theorem confirm_negative_index_witness :
    (confirm_meeting
        [("p1", (⟨[⟨540, 570, true⟩, ⟨600, 630, true⟩], "pending"⟩ : ProposalRec))]
        "p1" (-1) true).1
      = (match [(⟨540, 570, true⟩ : TimeSlot),
            ⟨600, 630, true⟩][((-1 : Int) + (([(⟨540, 570, true⟩ : TimeSlot),
            ⟨600, 630, true⟩].length : Nat) : Int)).toNat]? with
         | some slot => ConfirmOutcome.confirmed slot
         | none => ConfirmOutcome.indexError) ∧
    (confirm_meeting
        [("p1", (⟨[⟨540, 570, true⟩, ⟨600, 630, true⟩], "pending"⟩ : ProposalRec))]
        "p1" (-1) true).1 ≠ ConfirmOutcome.invalidSlotIndex :=
  confirm_negative_index
    [("p1", ⟨[⟨540, 570, true⟩, ⟨600, 630, true⟩], "pending"⟩)] "p1" (-1)
    ⟨[⟨540, 570, true⟩, ⟨600, 630, true⟩], "pending"⟩
    (by decide) (by decide) (by decide)

end SlotEngine
